import Mathlib

/-!
Verification of the electricity futures pricing and risk engine
(services/futures_service.py and the contract assembler in
routers/futures.py).

Modelling conventions.  Python floats are modelled as exact rationals;
numpy decimal literals such as 0.01, 0.02 and 0.25 become the rationals
1/100, 2/100 and 25/100.  The square root inside np.std and the
exponential inside the Ornstein-Uhlenbeck simulator are modelled with
Real.sqrt and Real.exp, so those values live in the reals.  A numpy
2-D array is a list of rows; the pseudo-random draws of the simulator
are an abstract family Z indexed by path and step, since the
distribution of the generator is outside a shallow embedding.
The NaN produced by np.corrcoef on a zero-variance series is modelled
by the value none of an Option type.
-/

/-- Mean of a list of rationals, as np.mean computes it: sum over length.
The empty list gives 0 because division by zero is zero here. -/
def npMean (xs : List ℚ) : ℚ := xs.sum / xs.length

/-- Population variance of a list of rationals: the mean of the squared
deviations from the mean.  np.std is the square root of this. -/
def npVar (xs : List ℚ) : ℚ := npMean (xs.map (fun x => (x - npMean xs) ^ 2))

/-- Population standard deviation np.std, a real number. -/
noncomputable def npStd (xs : List ℚ) : ℝ := Real.sqrt ((npVar xs : ℚ) : ℝ)

/-- The builtin python max over a list, which is only ever applied to
nonempty lists in the service; on a nonempty list it is the largest
element. -/
def pyMax (xs : List ℚ) : ℚ := xs.foldl max xs.headI

/-- The record returned by calculate_portfolio_risk_metrics
(futures_service.py lines 124-168).  Fields that involve np.std are
real numbers; the rest stay rational. -/
structure PortfolioRiskMetrics where
  mean_revenue : ℚ
  revenue_volatility : ℝ
  sharpe_ratio : ℝ
  value_at_risk_95 : ℚ
  expected_shortfall_95 : ℚ
  seasonal_premium : List ℚ

/-- The all-zero record returned on degenerate input
(futures_service.py lines 124-132). -/
def zeroMetrics : PortfolioRiskMetrics :=
  ⟨0, 0, 0, 0, 0, List.replicate 12 0⟩

/-- calculate_portfolio_risk_metrics (futures_service.py lines 118-168).
Degenerate input returns the all-zero record.  Otherwise: annual
revenues are row sums, VaR_95 is the sorted revenue at index
int(0.05 * n) = n / 20, ES_95 the mean of the values below that index
(the first sorted value when the index is 0), the Sharpe ratio guards
division by a zero standard deviation, and the seasonal premium list is
padded with zeros to twelve entries and truncated to twelve. -/
noncomputable def calculate_portfolio_risk_metrics
    (revenue_simulations : List (List ℚ)) : PortfolioRiskMetrics :=
  if revenue_simulations = [] ∨ revenue_simulations.headI = [] then zeroMetrics
  else
    let annual_revenues := revenue_simulations.map List.sum
    let mean_revenue := npMean annual_revenues
    let revenue_std := npStd annual_revenues
    let sorted_revenues := annual_revenues.insertionSort (· ≤ ·)
    let var_95_index := sorted_revenues.length / 20
    let value_at_risk :=
      if var_95_index < sorted_revenues.length then sorted_revenues.getD var_95_index 0
      else sorted_revenues.getD 0 0
    let expected_shortfall :=
      if 0 < var_95_index then npMean (sorted_revenues.take var_95_index)
      else sorted_revenues.getD 0 0
    let sharpe_ratio : ℝ := if 0 < revenue_std then (mean_revenue : ℝ) / revenue_std else 0
    let monthly_means := (List.range revenue_simulations.headI.length).map
      (fun j => npMean (revenue_simulations.map (fun r => r.getD j 0)))
    let avg_monthly := if 0 < monthly_means.length then npMean monthly_means else 1
    let seasonal_premium :=
      if 0 < avg_monthly then monthly_means.map (fun m => m / avg_monthly - 1)
      else List.replicate monthly_means.length 0
    ⟨mean_revenue, revenue_std, sharpe_ratio, value_at_risk, expected_shortfall,
      (seasonal_premium ++ List.replicate (12 - seasonal_premium.length) 0).take 12⟩

/-- C8: calculate_portfolio_risk_metrics applied to the empty list and to
a single empty path both return, without raising, the all-zero metrics
record, whose seasonal premium is a list of exactly twelve zeros. -/
theorem C8_degenerate_input_returns_zero_metrics :
    calculate_portfolio_risk_metrics [] = zeroMetrics ∧
    calculate_portfolio_risk_metrics [[]] = zeroMetrics ∧
    zeroMetrics.mean_revenue = 0 ∧
    zeroMetrics.revenue_volatility = 0 ∧
    zeroMetrics.sharpe_ratio = 0 ∧
    zeroMetrics.value_at_risk_95 = 0 ∧
    zeroMetrics.expected_shortfall_95 = 0 ∧
    zeroMetrics.seasonal_premium = List.replicate 12 0 ∧
    zeroMetrics.seasonal_premium.length = 12 := by
  refine ⟨?_, ?_, rfl, rfl, rfl, rfl, rfl, rfl, by simp [zeroMetrics]⟩
  · simp [calculate_portfolio_risk_metrics]
  · simp [calculate_portfolio_risk_metrics]

/-- Column j of the simulated price grid: spot_price_paths[:, j].  The
grid is rectangular in use, so the default value never surfaces when j
is below the row length. -/
def column (paths : List (List ℚ)) (j : ℕ) : List ℚ :=
  paths.map (fun row => row.getD j 0)

/-- spot_price_paths.shape[1], the number of columns of the rectangular
grid: the length of its first row. -/
def nCols (paths : List (List ℚ)) : ℕ := paths.headI.length

/-- spot_price_paths[0, 0], the initial spot price stored in the grid. -/
def p00 (paths : List (List ℚ)) : ℚ := paths.headI.getD 0 0

/-- The generation weight of futures_service.py line 69: the ratio of the
monthly generation to the peak generation, or 1.0 when that peak is not
positive. -/
def generation_weight (solar_generation : List ℚ) (g : ℚ) : ℚ :=
  if 0 < pyMax solar_generation then g / pyMax solar_generation else 1

/-- The fair price appended for one month by calculate_futures_fair_value
(futures_service.py lines 63-85): in the main branch the mean of the
generation-weighted delivery column plus the 2 percent per year risk
premium, in the fallback branch the initial grid price. -/
def monthPrice (paths : List (List ℚ)) (solar_generation : List ℚ)
    (month : ℕ) (generation ttd : ℚ) : ℚ :=
  if month + 1 < nCols paths then
    let weighted_prices :=
      (column paths (month + 1)).map (fun p => p * generation_weight solar_generation generation)
    let expected_price := npMean weighted_prices
    expected_price + 2/100 * ttd * expected_price
  else p00 paths

/-- The volatility appended for one month by calculate_futures_fair_value:
np.std of the weighted delivery column in the main branch, a quarter of
the initial grid price in the fallback branch. -/
noncomputable def monthVol (paths : List (List ℚ)) (solar_generation : List ℚ)
    (month : ℕ) (generation ttd : ℚ) : ℝ :=
  if month + 1 < nCols paths then
    npStd ((column paths (month + 1)).map
      (fun p => p * generation_weight solar_generation generation))
  else (p00 paths : ℚ) * (25/100)

/-- calculate_futures_fair_value (futures_service.py lines 48-87).  The
loop enumerates zip(solar_generation, time_to_delivery) and appends one
fair price and one volatility per month; risk_free_rate is accepted but
never read by the body, exactly as in the source. -/
noncomputable def calculate_futures_fair_value (paths : List (List ℚ))
    (solar_generation : List ℚ) (risk_free_rate : ℚ) (time_to_delivery : List ℚ) :
    List ℚ × List ℝ :=
  (((solar_generation.zip time_to_delivery).enum).map
      (fun e => monthPrice paths solar_generation e.1 e.2.1 e.2.2),
   ((solar_generation.zip time_to_delivery).enum).map
      (fun e => monthVol paths solar_generation e.1 e.2.1 e.2.2))

theorem enum_map_getD {α : Type} (l : List (ℚ × ℚ)) (f : ℕ → ℚ → ℚ → α) (d : α)
    (m : ℕ) (hm : m < l.length) :
    ((l.enum).map (fun e => f e.1 e.2.1 e.2.2)).getD m d =
      f m (l.getD m (0, 0)).1 (l.getD m (0, 0)).2 := by
  have h1 : m < (l.enum.map (fun e => f e.1 e.2.1 e.2.2)).length := by
    simpa using hm
  rw [List.getD_eq_getElem _ _ h1, List.getElem_map, List.getElem_enum,
    List.getD_eq_getElem _ _ hm]

theorem zip_getD (xs ys : List ℚ) (m : ℕ) (hm : m < (xs.zip ys).length) :
    (xs.zip ys).getD m (0, 0) = (xs.getD m 0, ys.getD m 0) := by
  have hx : m < xs.length := lt_of_lt_of_le hm (by simp [List.length_zip])
  have hy : m < ys.length := lt_of_lt_of_le hm (by simp [List.length_zip])
  rw [List.getD_eq_getElem _ _ hm, List.getElem_zip,
    List.getD_eq_getElem _ _ hx, List.getD_eq_getElem _ _ hy]

/-- Scaling every entry of a list scales its mean. -/
theorem npMean_map_mul (xs : List ℚ) (c : ℚ) :
    npMean (xs.map (fun x => x * c)) = c * npMean xs := by
  simp [npMean, List.sum_map_mul_right, div_eq_mul_inv]
  ring

/-- C5: in the main branch, the fair price of month m is E plus the risk
premium 0.02 * ttd[m] * E, where E is the mean of column m+1 of the
grid scaled by the generation weight; the volatility is the standard
deviation of the weighted column; and when the peak generation is zero
the weight is 1, so no division by zero occurs. -/
theorem C5_fair_value_formula (paths : List (List ℚ)) (gen ttd : List ℚ)
    (rfr : ℚ) (m : ℕ) (hm : m < (gen.zip ttd).length)
    (hcol : m + 1 < nCols paths) :
    (calculate_futures_fair_value paths gen rfr ttd).1.getD m 0 =
      generation_weight gen (gen.getD m 0) * npMean (column paths (m + 1)) +
        2/100 * ttd.getD m 0 *
          (generation_weight gen (gen.getD m 0) * npMean (column paths (m + 1))) ∧
    (calculate_futures_fair_value paths gen rfr ttd).2.getD m 0 =
      npStd ((column paths (m + 1)).map
        (fun p => p * generation_weight gen (gen.getD m 0))) ∧
    (pyMax gen = 0 → generation_weight gen (gen.getD m 0) = 1) := by
  refine ⟨?_, ?_, ?_⟩
  · rw [calculate_futures_fair_value]
    rw [enum_map_getD _ _ _ m hm, zip_getD _ _ m hm]
    simp only [monthPrice, if_pos hcol]
    rw [npMean_map_mul]
  · rw [calculate_futures_fair_value]
    rw [enum_map_getD _ _ _ m hm, zip_getD _ _ m hm]
    simp only [monthVol, if_pos hcol]
  · intro h
    rw [generation_weight, if_neg (by rw [h]; exact lt_irrefl 0)]

/-- C5 witness: the theorem applied to a concrete two-path grid with one
delivery month. -/
theorem C5_fair_value_formula_witness :
    (0 < ([(1 : ℚ)].zip [(1 : ℚ)]).length ∧ 0 + 1 < nCols [[1, 2], [3, 4]]) ∧
    ((calculate_futures_fair_value [[1, 2], [3, 4]] [1] (4/100) [1]).1.getD 0 0 =
      generation_weight [1] ([(1 : ℚ)].getD 0 0) * npMean (column [[1, 2], [3, 4]] (0 + 1)) +
        2/100 * [(1 : ℚ)].getD 0 0 *
          (generation_weight [1] ([(1 : ℚ)].getD 0 0) * npMean (column [[1, 2], [3, 4]] (0 + 1))) ∧
    (calculate_futures_fair_value [[1, 2], [3, 4]] [1] (4/100) [1]).2.getD 0 0 =
      npStd ((column [[1, 2], [3, 4]] (0 + 1)).map
        (fun p => p * generation_weight [1] ([(1 : ℚ)].getD 0 0))) ∧
    (pyMax [1] = 0 → generation_weight [1] ([(1 : ℚ)].getD 0 0) = 1)) :=
  ⟨⟨by decide, by decide⟩,
    C5_fair_value_formula [[1, 2], [3, 4]] [1] [1] (4/100) 0 (by decide) (by decide)⟩

/-- C10: for a month whose delivery column lies outside the simulated
grid, calculate_futures_fair_value appends the initial grid price as the
fair price and a quarter of that price as the volatility, instead of
failing. -/
theorem C10_out_of_horizon_fallback (paths : List (List ℚ)) (gen ttd : List ℚ)
    (rfr : ℚ) (m : ℕ) (hm : m < (gen.zip ttd).length)
    (hcol : ¬ (m + 1 < nCols paths)) :
    (calculate_futures_fair_value paths gen rfr ttd).1.getD m 0 = p00 paths ∧
    (calculate_futures_fair_value paths gen rfr ttd).2.getD m 0 =
      ((p00 paths : ℚ) : ℝ) * (25/100) := by
  constructor
  · rw [calculate_futures_fair_value]
    rw [enum_map_getD _ _ _ m hm, zip_getD _ _ m hm]
    rw [monthPrice, if_neg hcol]
  · rw [calculate_futures_fair_value]
    rw [enum_map_getD _ _ _ m hm, zip_getD _ _ m hm]
    rw [monthVol, if_neg hcol]

/-- C10 witness: the theorem applied to a one-column grid, where month 0
already lies past the simulated horizon. -/
theorem C10_out_of_horizon_fallback_witness :
    (0 < ([(10 : ℚ)].zip [(1/12 : ℚ)]).length ∧ ¬ (0 + 1 < nCols [[50]])) ∧
    ((calculate_futures_fair_value [[50]] [10] (4/100) [1/12]).1.getD 0 0 = p00 [[50]] ∧
    (calculate_futures_fair_value [[50]] [10] (4/100) [1/12]).2.getD 0 0 =
      ((p00 [[50]] : ℚ) : ℝ) * (25/100)) :=
  ⟨⟨by decide, by decide⟩,
    C10_out_of_horizon_fallback [[50]] [10] [1/12] (4/100) 0 (by decide) (by decide)⟩

/-- The precomputed drift term of futures_service.py line 35:
exp(-kappa * dt) with dt = T / n_steps. -/
noncomputable def drift_factor (kappa T : ℝ) (n_steps : ℕ) : ℝ :=
  Real.exp (-kappa * (T / n_steps))

/-- The precomputed mean term of futures_service.py line 36:
theta * (1 - exp(-kappa * dt)). -/
noncomputable def mean_factor (kappa theta T : ℝ) (n_steps : ℕ) : ℝ :=
  theta * (1 - drift_factor kappa T n_steps)

/-- The precomputed diffusion term of futures_service.py line 37:
sigma * sqrt((1 - exp(-2 kappa dt)) / (2 kappa)). -/
noncomputable def vol_factor (kappa sigma T : ℝ) (n_steps : ℕ) : ℝ :=
  sigma * Real.sqrt ((1 - Real.exp (-2 * kappa * (T / n_steps))) / (2 * kappa))

/-- One simulation step of futures_service.py lines 41-44: the affine
Ornstein-Uhlenbeck update followed by the hard floor at 0.01. -/
noncomputable def pathStep (drift mean vol prev z : ℝ) : ℝ :=
  max (prev * drift + mean + vol * z) (1/100)

/-- One simulated path: entry 0 is the initial price, and entry t + 1
applies pathStep to entry t with the draw of step t + 1. -/
noncomputable def simPath (drift mean vol s0 : ℝ) (z : ℕ → ℝ) : ℕ → ℝ
  | 0 => s0
  | t + 1 => pathStep drift mean vol (simPath drift mean vol s0 z t) (z (t + 1))

/-- simulate_mean_reverting_prices (futures_service.py lines 13-46): the
grid of n_paths rows and n_steps + 1 columns whose row p, column t entry
is the price of path p after t steps.  Z p t is the standard-normal draw
of path p at step t; the distribution of the generator is not part of
the embedding.  The numpy code fills the grid column by column; filling
it row by row yields the same grid because paths never interact. -/
noncomputable def simulate_mean_reverting_prices
    (s0 kappa theta sigma T : ℝ) (n_steps n_paths : ℕ) (Z : ℕ → ℕ → ℝ) :
    List (List ℝ) :=
  (List.range n_paths).map (fun p =>
    (List.range (n_steps + 1)).map
      (simPath (drift_factor kappa T n_steps) (mean_factor kappa theta T n_steps)
        (vol_factor kappa sigma T n_steps) s0 (Z p)))

theorem sim_length (s0 kappa theta sigma T : ℝ) (n_steps n_paths : ℕ)
    (Z : ℕ → ℕ → ℝ) :
    (simulate_mean_reverting_prices s0 kappa theta sigma T n_steps n_paths Z).length
      = n_paths := by
  simp [simulate_mean_reverting_prices]

theorem sim_row (s0 kappa theta sigma T : ℝ) (n_steps n_paths : ℕ)
    (Z : ℕ → ℕ → ℝ) (p : ℕ) (hp : p < n_paths) :
    (simulate_mean_reverting_prices s0 kappa theta sigma T n_steps n_paths Z).getD p []
      = (List.range (n_steps + 1)).map
          (simPath (drift_factor kappa T n_steps) (mean_factor kappa theta T n_steps)
            (vol_factor kappa sigma T n_steps) s0 (Z p)) := by
  have h1 : p < (simulate_mean_reverting_prices s0 kappa theta sigma T n_steps n_paths Z).length := by
    rw [sim_length]; exact hp
  rw [List.getD_eq_getElem _ _ h1]
  simp [simulate_mean_reverting_prices]

theorem sim_entry (s0 kappa theta sigma T : ℝ) (n_steps n_paths : ℕ)
    (Z : ℕ → ℕ → ℝ) (p t : ℕ) (hp : p < n_paths) (ht : t < n_steps + 1) :
    ((simulate_mean_reverting_prices s0 kappa theta sigma T n_steps n_paths Z).getD p []).getD t 0
      = simPath (drift_factor kappa T n_steps) (mean_factor kappa theta T n_steps)
          (vol_factor kappa sigma T n_steps) s0 (Z p) t := by
  rw [sim_row s0 kappa theta sigma T n_steps n_paths Z p hp]
  have h2 : t < ((List.range (n_steps + 1)).map
      (simPath (drift_factor kappa T n_steps) (mean_factor kappa theta T n_steps)
        (vol_factor kappa sigma T n_steps) s0 (Z p))).length := by simpa using ht
  rw [List.getD_eq_getElem _ _ h2, List.getElem_map, List.getElem_range]

/-- C2 (amended): for every valid parameter set the simulated grid has
n_paths rows of n_steps + 1 entries, column 0 equals spot_price0 exactly
for every path, and every entry of columns 1 through n_steps is at least
the floor 0.01.  Column 0 itself is never floored, so the claim that
every grid value is at least 0.01 fails when spot_price0 < 0.01; see the
counterexample. -/
theorem C2_grid_shape_initial_column_floor (s0 kappa theta sigma T : ℝ)
    (n_steps n_paths : ℕ) (Z : ℕ → ℕ → ℝ)
    (hs0 : 0 < s0) (hk : 0 < kappa) (hsig : 0 < sigma) (hT : 0 < T)
    (hsteps : 1 ≤ n_steps) (hpaths : 1 ≤ n_paths) :
    (simulate_mean_reverting_prices s0 kappa theta sigma T n_steps n_paths Z).length = n_paths ∧
    (∀ row ∈ simulate_mean_reverting_prices s0 kappa theta sigma T n_steps n_paths Z,
      row.length = n_steps + 1) ∧
    (∀ p, p < n_paths →
      ((simulate_mean_reverting_prices s0 kappa theta sigma T n_steps n_paths Z).getD p []).getD 0 0
        = s0) ∧
    (∀ p t, p < n_paths → 1 ≤ t → t ≤ n_steps →
      1/100 ≤
        ((simulate_mean_reverting_prices s0 kappa theta sigma T n_steps n_paths Z).getD p []).getD t 0) := by
  refine ⟨sim_length s0 kappa theta sigma T n_steps n_paths Z, ?_, ?_, ?_⟩
  · intro row hrow
    simp only [simulate_mean_reverting_prices, List.mem_map] at hrow
    obtain ⟨p, hp, rfl⟩ := hrow
    simp
  · intro p hp
    rw [sim_entry s0 kappa theta sigma T n_steps n_paths Z p 0 hp (Nat.succ_pos _)]
    rfl
  · intro p t hp ht1 ht2
    rw [sim_entry s0 kappa theta sigma T n_steps n_paths Z p t hp (by omega)]
    obtain ⟨u, rfl⟩ : ∃ u, t = u + 1 := ⟨t - 1, by omega⟩
    simp only [simPath, pathStep]
    exact le_max_right _ _

/-- C2 counterexample: the parameters are all valid, with a spot price of
1/200, yet the grid entry of path 0 at column 0 is 1/200 < 0.01, so not
every grid value is at least the floor constant. -/
theorem C2_counterexample_small_spot_below_floor :
    ((0:ℝ) < 1/200 ∧ (0:ℝ) < 1 ∧ (0:ℝ) < 1 ∧ (0:ℝ) < 1 ∧ 1 ≤ 1 ∧ 1 ≤ 1) ∧
    ((simulate_mean_reverting_prices (1/200) 1 1 1 1 1 1 (fun _ _ => 0)).getD 0 []).getD 0 0
      < 1/100 := by
  refine ⟨⟨by norm_num, by norm_num, by norm_num, by norm_num, le_refl 1, le_refl 1⟩, ?_⟩
  rw [sim_entry (1/200) 1 1 1 1 1 1 (fun _ _ => 0) 0 0 Nat.one_pos (Nat.succ_pos _)]
  show (1/200 : ℝ) < 1/100
  norm_num

/-- C2 witness for the amended theorem, at a concrete valid parameter
set. -/
theorem C2_grid_shape_initial_column_floor_witness :
    ((0:ℝ) < 50 ∧ (0:ℝ) < 3/2 ∧ (0:ℝ) < 1/4 ∧ (0:ℝ) < 1 ∧ 1 ≤ 12 ∧ 1 ≤ 2) ∧
    ((simulate_mean_reverting_prices 50 (3/2) 45 (1/4) 1 12 2 (fun _ _ => 0)).length = 2 ∧
    (∀ row ∈ simulate_mean_reverting_prices 50 (3/2) 45 (1/4) 1 12 2 (fun _ _ => 0),
      row.length = 12 + 1) ∧
    (∀ p, p < 2 →
      ((simulate_mean_reverting_prices 50 (3/2) 45 (1/4) 1 12 2 (fun _ _ => 0)).getD p []).getD 0 0
        = 50) ∧
    (∀ p t, p < 2 → 1 ≤ t → t ≤ 12 →
      1/100 ≤
        ((simulate_mean_reverting_prices 50 (3/2) 45 (1/4) 1 12 2 (fun _ _ => 0)).getD p []).getD t 0)) :=
  ⟨⟨by norm_num, by norm_num, by norm_num, by norm_num, by decide, by decide⟩,
    C2_grid_shape_initial_column_floor 50 (3/2) 45 (1/4) 1 12 2 (fun _ _ => 0)
      (by norm_num) (by norm_num) (by norm_num) (by norm_num) (by decide) (by decide)⟩

/-- C3: for every step t in 1..n_steps and every path p below n_paths,
the grid entry at column t is the previous entry times exp(-kappa dt),
plus theta (1 - exp(-kappa dt)), plus sigma sqrt((1 - exp(-2 kappa dt))
divided by 2 kappa) times the draw Z p t, floored at 0.01, with
dt = T / n_steps: the exact Ornstein-Uhlenbeck transition moments, not
an Euler approximation.  That the draws are independent standard
normals is a property of the random source, outside the embedding. -/
theorem C3_exact_ou_transition (s0 kappa theta sigma T : ℝ)
    (n_steps n_paths : ℕ) (Z : ℕ → ℕ → ℝ) (p t : ℕ)
    (hp : p < n_paths) (ht1 : 1 ≤ t) (ht2 : t ≤ n_steps) :
    ((simulate_mean_reverting_prices s0 kappa theta sigma T n_steps n_paths Z).getD p []).getD t 0
      = max
          (((simulate_mean_reverting_prices s0 kappa theta sigma T n_steps n_paths Z).getD p []).getD (t - 1) 0
              * Real.exp (-kappa * (T / n_steps))
            + theta * (1 - Real.exp (-kappa * (T / n_steps)))
            + sigma * Real.sqrt ((1 - Real.exp (-2 * kappa * (T / n_steps))) / (2 * kappa))
              * Z p t)
          (1/100) := by
  obtain ⟨u, rfl⟩ : ∃ u, t = u + 1 := ⟨t - 1, by omega⟩
  rw [sim_entry s0 kappa theta sigma T n_steps n_paths Z p (u + 1) hp (by omega)]
  simp only [Nat.add_sub_cancel]
  rw [sim_entry s0 kappa theta sigma T n_steps n_paths Z p u hp (by omega)]
  simp only [simPath, pathStep, drift_factor, mean_factor, vol_factor]

/-- C3 witness: the transition equation applied at path 1, step 1 of a
concrete simulation. -/
theorem C3_exact_ou_transition_witness :
    (1 < 2 ∧ 1 ≤ 1 ∧ 1 ≤ 12) ∧
    ((simulate_mean_reverting_prices 50 (3/2) 45 (1/4) 1 12 2 (fun _ _ => 1)).getD 1 []).getD 1 0
      = max
          (((simulate_mean_reverting_prices 50 (3/2) 45 (1/4) 1 12 2 (fun _ _ => 1)).getD 1 []).getD (1 - 1) 0
              * Real.exp (-(3/2) * (1 / (12 : ℕ)))
            + 45 * (1 - Real.exp (-(3/2) * (1 / (12 : ℕ))))
            + (1/4) * Real.sqrt ((1 - Real.exp (-2 * (3/2) * (1 / (12 : ℕ)))) / (2 * (3/2)))
              * (fun _ _ => (1:ℝ)) 1 1)
          (1/100) :=
  ⟨⟨by decide, by decide, by decide⟩,
    C3_exact_ou_transition 50 (3/2) 45 (1/4) 1 12 2 (fun _ _ => 1) 1 1
      (by decide) (by decide) (by decide)⟩

/-- C4 counterexample: with sigma = -1, violating the declared bound
sigma > 0, simulate_mean_reverting_prices performs no validation and
returns a complete path ensemble of one row and thirteen columns instead
of failing fast. -/
theorem C4_counterexample_negative_sigma_returns_ensemble :
    ((-1 : ℝ) ≤ 0) ∧
    (simulate_mean_reverting_prices 50 (3/2) 45 (-1) 1 12 1 (fun _ _ => 0)).length = 1 ∧
    ∀ row ∈ simulate_mean_reverting_prices 50 (3/2) 45 (-1) 1 12 1 (fun _ _ => 0),
      row.length = 12 + 1 := by
  refine ⟨by norm_num, sim_length 50 (3/2) 45 (-1) 1 12 1 (fun _ _ => 0), ?_⟩
  intro row hrow
  simp only [simulate_mean_reverting_prices, List.mem_map] at hrow
  obtain ⟨p, hp, rfl⟩ := hrow
  simp

/-- The field bounds that the pydantic request model
ElectricityFuturesRequest (models/pricing_models.py lines 24-46)
enforces before any service code runs: positive spot price, volatility
in (0, 2], positive reversion speed, positive long-term mean, risk-free
rate in [0, 0.2], contract months in [1, 24] and Monte Carlo paths in
[1000, 100000]. -/
def requestValid (current_spot_price price_volatility mean_reversion_speed
    long_term_price_mean risk_free_rate : ℚ)
    (contract_months monte_carlo_paths : ℕ) : Prop :=
  0 < current_spot_price ∧
  0 < price_volatility ∧ price_volatility ≤ 2 ∧
  0 < mean_reversion_speed ∧
  0 < long_term_price_mean ∧
  0 ≤ risk_free_rate ∧ risk_free_rate ≤ 1/5 ∧
  1 ≤ contract_months ∧ contract_months ≤ 24 ∧
  1000 ≤ monte_carlo_paths ∧ monte_carlo_paths ≤ 100000

/-- C4 (amended): simulate_mean_reverting_prices itself contains no
parameter validation and happily returns an ensemble for a malformed
sigma (see the counterexample).  The fail-fast rejection lives at the
API boundary: the request bounds of the pydantic model imply that the
arguments the assembler passes to the simulator, namely s0 equal to the
spot price, kappa the reversion speed, sigma the volatility, T equal to
contract_months / 12, n_steps equal to contract_months and n_paths the
Monte Carlo path count, all satisfy the declared simulator bounds, so
within the API flow simulation never starts from a malformed
parameter. -/
theorem C4_request_bounds_imply_simulator_bounds
    (spot vol kappa ltm rfr : ℚ) (cm mc : ℕ)
    (h : requestValid spot vol kappa ltm rfr cm mc) :
    0 < spot ∧ 0 < kappa ∧ 0 < vol ∧ 0 < (cm : ℚ) / 12 ∧ 1 ≤ cm ∧ 1 ≤ mc := by
  obtain ⟨h1, h2, _, h4, _, _, _, h8, _, h10, _⟩ := h
  refine ⟨h1, h4, h2, ?_, h8, by omega⟩
  have hcm : (1 : ℚ) ≤ (cm : ℚ) := by exact_mod_cast h8
  have : (0 : ℚ) < (cm : ℚ) := lt_of_lt_of_le one_pos hcm
  positivity

/-- C4 witness for the amended theorem, at a concrete valid request. -/
theorem C4_request_bounds_imply_simulator_bounds_witness :
    requestValid 50 (1/4) (3/2) 45 (1/25) 12 10000 ∧
    (0 < (50:ℚ) ∧ 0 < (3/2:ℚ) ∧ 0 < (1/4:ℚ) ∧ 0 < ((12:ℕ) : ℚ) / 12 ∧ 1 ≤ 12 ∧ 1 ≤ 10000) :=
  ⟨by norm_num [requestValid],
    C4_request_bounds_imply_simulator_bounds 50 (1/4) (3/2) 45 (1/25) 12 10000
      (by norm_num [requestValid])⟩

theorem fair_value_length (paths : List (List ℚ)) (gen : List ℚ) (rfr : ℚ)
    (ttd : List ℚ) :
    (calculate_futures_fair_value paths gen rfr ttd).1.length
      = min gen.length ttd.length := by
  simp [calculate_futures_fair_value]

/-- The fields of an assembled contract that the engine computes
numerically (routers/futures.py lines 213-222).  The symbol, delivery
month label, delta and timestamp are elided: they are string or
calendar data and Greeks, not referenced by the claims proved here. -/
structure ElectricityFuturesContract where
  underlying_generation_mwh : ℚ
  futures_price : ℚ
  expected_revenue : ℚ
  contract_size : ℚ

/-- The contract-building loop of the assembler (routers/futures.py
lines 204-223): one candidate month per index below min(12,
contract_months), kept only when the index is inside both the fair
price list and the generation list, with
expected_revenue = generation * fair price. -/
def buildContracts (gen fp : List ℚ) (contract_months : ℕ) :
    List ElectricityFuturesContract :=
  ((List.range (min 12 contract_months)).filter
      (fun m => decide (m < fp.length) && decide (m < gen.length))).map
    (fun m => ⟨gen.getD m 0, fp.getD m 0, gen.getD m 0 * fp.getD m 0, gen.getD m 0⟩)

/-- C9: with the twelve-month generation forecast the solar service
returns and one time-to-delivery entry per requested month, the
assembler builds exactly min(12, contract_months) contracts, one per
delivery month even when up to 24 months are requested, and every
contract satisfies expected_revenue = generation_mwh * fair_price. -/
theorem C9_contract_count_and_revenue (paths : List (List ℚ)) (gen ttd : List ℚ)
    (rfr : ℚ) (contract_months : ℕ)
    (hgen : gen.length = 12) (httd : ttd.length = contract_months) :
    (buildContracts gen (calculate_futures_fair_value paths gen rfr ttd).1 contract_months).length
      = min 12 contract_months ∧
    ∀ c ∈ buildContracts gen (calculate_futures_fair_value paths gen rfr ttd).1 contract_months,
      c.expected_revenue = c.underlying_generation_mwh * c.futures_price := by
  have hfp : (calculate_futures_fair_value paths gen rfr ttd).1.length
      = min 12 contract_months := by
    rw [fair_value_length, hgen, httd]
  have hfilter : (List.range (min 12 contract_months)).filter
      (fun m => decide (m < (calculate_futures_fair_value paths gen rfr ttd).1.length)
        && decide (m < gen.length))
      = List.range (min 12 contract_months) := by
    apply List.filter_eq_self.mpr
    intro m hm
    rw [List.mem_range] at hm
    have h1 : m < (calculate_futures_fair_value paths gen rfr ttd).1.length := by
      rw [hfp]; exact hm
    have h2 : m < gen.length := by
      rw [hgen]; exact lt_of_lt_of_le hm (min_le_left _ _)
    simp [h1, h2]
  constructor
  · rw [buildContracts, hfilter]
    simp
  · intro c hc
    rw [buildContracts] at hc
    simp only [List.mem_map] at hc
    obtain ⟨m, hm, rfl⟩ := hc
    rfl

/-- C9 witness: a request for 14 months with the twelve-month forecast
caps the contract list at twelve. -/
theorem C9_contract_count_and_revenue_witness :
    (([1, 1, 1, 1, 1, 1, 1, 1, 1, 1, 1, 1] : List ℚ).length = 12 ∧
      (List.replicate 14 (1 : ℚ)).length = 14) ∧
    ((buildContracts [1, 1, 1, 1, 1, 1, 1, 1, 1, 1, 1, 1]
        (calculate_futures_fair_value [[50, 50]] [1, 1, 1, 1, 1, 1, 1, 1, 1, 1, 1, 1] (4/100)
          (List.replicate 14 1)).1 14).length
      = min 12 14 ∧
    ∀ c ∈ buildContracts [1, 1, 1, 1, 1, 1, 1, 1, 1, 1, 1, 1]
        (calculate_futures_fair_value [[50, 50]] [1, 1, 1, 1, 1, 1, 1, 1, 1, 1, 1, 1] (4/100)
          (List.replicate 14 1)).1 14,
      c.expected_revenue = c.underlying_generation_mwh * c.futures_price) :=
  ⟨⟨by decide, by decide⟩,
    C9_contract_count_and_revenue [[50, 50]] [1, 1, 1, 1, 1, 1, 1, 1, 1, 1, 1, 1]
      (List.replicate 14 1) (4/100) 14 (by decide) (by decide)⟩

/-- The covariance entry of np.corrcoef for two equal-length series: the
mean product of deviations.  In the correlation quotient the 1 / n
normalization cancels against the standard deviations, so using the
population mean here is equivalent to the numpy normalization. -/
def npCov (xs ys : List ℚ) : ℚ :=
  npMean ((xs.zip ys).map (fun p => (p.1 - npMean xs) * (p.2 - npMean ys)))

/-- np.corrcoef(x, y)[0, 1]: covariance over the product of standard
deviations.  When either series has zero variance numpy divides zero by
zero and yields NaN, modelled here as none. -/
noncomputable def corrcoef01 (xs ys : List ℚ) : Option ℝ :=
  if npVar xs = 0 ∨ npVar ys = 0 then none
  else some (((npCov xs ys : ℚ) : ℝ) / (npStd xs * npStd ys))

/-- The correlation computation of the assembler (routers/futures.py
lines 229-234): only when both the generation list and the fair price
list have at least twelve entries is np.corrcoef applied to the first
twelve of each; otherwise the correlation is 0.0.  The inner guard,
requiring more than one entry in each truncated series, is always true
on that branch. -/
noncomputable def correlation_solar_price (gen fp : List ℚ) : Option ℝ :=
  if 12 ≤ gen.length ∧ 12 ≤ fp.length then
    if 1 < (gen.take 12).length ∧ 1 < (fp.take 12).length then
      corrcoef01 (gen.take 12) (fp.take 12)
    else some 0
  else some 0

theorem list_sum_const (xs : List ℚ) (c : ℚ) (h : ∀ x ∈ xs, x = c) :
    xs.sum = xs.length * c := by
  induction xs with
  | nil => simp
  | cons a t ih =>
    have ha : a = c := h a (List.mem_cons_self a t)
    have ht : ∀ x ∈ t, x = c := fun x hx => h x (List.mem_cons_of_mem a hx)
    rw [List.sum_cons, ha, ih ht, List.length_cons]
    push_cast
    ring

theorem npMean_const (xs : List ℚ) (c : ℚ) (hne : xs ≠ [])
    (h : ∀ x ∈ xs, x = c) : npMean xs = c := by
  have hlen : (xs.length : ℚ) ≠ 0 := by
    simpa using List.length_pos.mpr hne |>.ne'
  rw [npMean, list_sum_const xs c h, mul_comm, mul_div_assoc, div_self hlen, mul_one]

theorem npVar_const (xs : List ℚ) (c : ℚ) (h : ∀ x ∈ xs, x = c) :
    npVar xs = 0 := by
  rcases eq_or_ne xs [] with rfl | hne
  · simp [npVar, npMean]
  · rw [npVar]
    have hmean := npMean_const xs c hne h
    have hzero : ∀ y ∈ xs.map (fun x => (x - npMean xs) ^ 2), y = 0 := by
      intro y hy
      rw [List.mem_map] at hy
      obtain ⟨x, hx, rfl⟩ := hy
      rw [h x hx, hmean]
      ring
    rw [npMean, list_sum_const _ 0 hzero, mul_zero, zero_div]

/-- C6 counterexample: a constant twelve-month generation series has
zero variance, and against twelve distinct fair prices the assembler
computes NaN (modelled as none), not the 0.0 the claim requires. -/
theorem C6_counterexample_zero_variance_not_zero :
    (List.replicate 12 (5 : ℚ)).length = 12 ∧
    npVar (List.replicate 12 (5 : ℚ)) = 0 ∧
    correlation_solar_price (List.replicate 12 5)
        [1, 2, 3, 4, 5, 6, 7, 8, 9, 10, 11, 12] = none ∧
    (none : Option ℝ) ≠ some 0 := by
  have hv : npVar (List.replicate 12 (5 : ℚ)) = 0 :=
    npVar_const _ 5 (fun x hx => (List.eq_of_mem_replicate hx))
  have hv12 : npVar (List.take 12 (List.replicate 12 (5 : ℚ))) = 0 := by
    rw [List.take_replicate]
    exact npVar_const _ 5 (fun x hx => List.eq_of_mem_replicate hx)
  refine ⟨by decide, hv, ?_, by simp⟩
  rw [correlation_solar_price, if_pos (by decide), if_pos (by decide), corrcoef01,
    if_pos (Or.inl hv12)]

/-- C6 (amended): the assembler returns 0.0 for the correlation whenever
either list has fewer than twelve entries, even if both have at least
two entries and positive variance; when both lists have at least twelve
entries and both truncated series have nonzero variance it returns the
Pearson coefficient of the first twelve generation values and the first
twelve fair prices; and when either truncated series has zero variance
it returns NaN (modelled as none), not 0.0. -/
theorem C6_correlation_guards (gen fp : List ℚ) :
    (¬ (12 ≤ gen.length ∧ 12 ≤ fp.length) →
      correlation_solar_price gen fp = some 0) ∧
    (12 ≤ gen.length → 12 ≤ fp.length →
      npVar (gen.take 12) ≠ 0 → npVar (fp.take 12) ≠ 0 →
      correlation_solar_price gen fp
        = some (((npCov (gen.take 12) (fp.take 12) : ℚ) : ℝ)
            / (npStd (gen.take 12) * npStd (fp.take 12)))) ∧
    (12 ≤ gen.length → 12 ≤ fp.length →
      (npVar (gen.take 12) = 0 ∨ npVar (fp.take 12) = 0) →
      correlation_solar_price gen fp = none) := by
  refine ⟨?_, ?_, ?_⟩
  · intro h
    rw [correlation_solar_price, if_neg h]
  · intro h1 h2 hv1 hv2
    have hg : 1 < (gen.take 12).length := by
      rw [List.length_take]; omega
    have hf : 1 < (fp.take 12).length := by
      rw [List.length_take]; omega
    rw [correlation_solar_price, if_pos ⟨h1, h2⟩, if_pos ⟨hg, hf⟩, corrcoef01,
      if_neg (by push_neg; exact ⟨hv1, hv2⟩)]
  · intro h1 h2 hv
    have hg : 1 < (gen.take 12).length := by
      rw [List.length_take]; omega
    have hf : 1 < (fp.take 12).length := by
      rw [List.length_take]; omega
    rw [correlation_solar_price, if_pos ⟨h1, h2⟩, if_pos ⟨hg, hf⟩, corrcoef01,
      if_pos hv]

theorem npMean_le_of_all_le (xs : List ℚ) (c : ℚ) (hne : xs ≠ [])
    (h : ∀ x ∈ xs, x ≤ c) : npMean xs ≤ c := by
  have hlen : (0 : ℚ) < (xs.length : ℚ) := by
    exact_mod_cast List.length_pos.mpr hne
  rw [npMean, div_le_iff hlen]
  calc xs.sum ≤ xs.length • c := List.sum_le_card_nsmul xs c h
    _ = c * xs.length := by rw [nsmul_eq_mul]; ring

theorem sorted_take_le (S : List ℚ) (hs : S.Sorted (· ≤ ·)) (k : ℕ)
    (hk : k < S.length) (x : ℚ) (hx : x ∈ S.take k) : x ≤ S.getD k 0 := by
  rw [List.mem_iff_getElem] at hx
  obtain ⟨i, hi, rfl⟩ := hx
  have hik : i < k := by
    have := hi
    rw [List.length_take] at this
    omega
  rw [List.getElem_take, List.getD_eq_getElem S 0 hk]
  exact List.pairwise_iff_getElem.mp hs i k (by omega) hk hik

/-- C7: for nonempty revenue simulations with nonempty rows of equal
length, the expected shortfall at 95 percent never exceeds the value at
risk at 95 percent: the sorted annual revenue at index floor(0.05 n)
bounds from above the mean of the revenues below that index, and equals
the shortfall when the index is zero. -/
theorem C7_expected_shortfall_le_value_at_risk (rs : List (List ℚ))
    (h1 : rs ≠ []) (h2 : ∀ r ∈ rs, r ≠ [])
    (h3 : ∀ r ∈ rs, r.length = rs.headI.length) :
    (calculate_portfolio_risk_metrics rs).expected_shortfall_95
      ≤ (calculate_portfolio_risk_metrics rs).value_at_risk_95 := by
  obtain ⟨a, t, rfl⟩ := List.exists_cons_of_ne_nil h1
  have hhead : (a :: t).headI = a := rfl
  have hane : a ≠ [] := h2 a (List.mem_cons_self a t)
  have hcond : ¬ ((a :: t) = [] ∨ (a :: t).headI = []) := by
    push_neg
    exact ⟨List.cons_ne_nil a t, by rw [hhead]; exact hane⟩
  simp only [calculate_portfolio_risk_metrics, if_neg hcond]
  set annual := (a :: t).map List.sum with hannual
  set S := annual.insertionSort (· ≤ ·) with hS
  have hSlen : 0 < S.length := by
    rw [hS, List.length_insertionSort, hannual]
    simp
  have hsorted : S.Sorted (· ≤ ·) := List.sorted_insertionSort (· ≤ ·) annual
  have hk : S.length / 20 < S.length := Nat.div_lt_self hSlen (by omega)
  simp only [if_pos hk]
  rcases Nat.eq_zero_or_pos (S.length / 20) with hz | hpos
  · rw [hz]
    simp
  · rw [if_pos hpos]
    have htake_ne : S.take (S.length / 20) ≠ [] := by
      have : (S.take (S.length / 20)).length = S.length / 20 := by
        rw [List.length_take]
        omega
      intro hcontra
      rw [hcontra] at this
      simp at this
      omega
    exact npMean_le_of_all_le _ _ htake_ne
      (fun x hx => sorted_take_le S hsorted (S.length / 20) hk x hx)

/-- C7 witness: three one-month paths. -/
theorem C7_expected_shortfall_le_value_at_risk_witness :
    (([[1], [2], [3]] : List (List ℚ)) ≠ [] ∧
      (∀ r ∈ ([[1], [2], [3]] : List (List ℚ)), r ≠ []) ∧
      (∀ r ∈ ([[1], [2], [3]] : List (List ℚ)),
        r.length = ([[1], [2], [3]] : List (List ℚ)).headI.length)) ∧
    (calculate_portfolio_risk_metrics [[1], [2], [3]]).expected_shortfall_95
      ≤ (calculate_portfolio_risk_metrics [[1], [2], [3]]).value_at_risk_95 :=
  ⟨⟨by simp, by simp, by simp⟩,
    C7_expected_shortfall_le_value_at_risk [[1], [2], [3]] (by simp) (by simp) (by simp)⟩

/-- One revenue-simulation row of the assembler (routers/futures.py
lines 185-193): for each month below min(12, contract_months), the
generation (0 when the index is past the forecast) times the price,
which is the fair futures price when the index is inside the fair price
list and otherwise a simulated path value. -/
def buildRevenueRow (gen fp path : List ℚ) (contract_months : ℕ) : List ℚ :=
  (List.range (min 12 contract_months)).map (fun month =>
    (if month < gen.length then gen.getD month 0 else 0) *
      (if month < fp.length then fp.getD month 0
       else if month + 1 < path.length then path.getD (month + 1) 0
       else path.getLastD 0))

/-- Steps 5 through 8 of the assembler: fair prices from the simulated
grid, one revenue row per path, and the portfolio risk metrics of those
rows. -/
noncomputable def assembledRiskMetrics (paths : List (List ℚ)) (gen ttd : List ℚ)
    (rfr : ℚ) (contract_months : ℕ) : PortfolioRiskMetrics :=
  calculate_portfolio_risk_metrics (paths.map (fun path =>
    buildRevenueRow gen (calculate_futures_fair_value paths gen rfr ttd).1 path
      contract_months))

theorem buildRevenueRow_of_full_prices (gen fp path : List ℚ) (cm : ℕ)
    (hgen : min 12 cm ≤ gen.length) (hfp : min 12 cm ≤ fp.length) :
    buildRevenueRow gen fp path cm
      = (List.range (min 12 cm)).map
          (fun month => gen.getD month 0 * fp.getD month 0) := by
  rw [buildRevenueRow]
  apply List.map_congr_left
  intro m hm
  rw [List.mem_range] at hm
  rw [if_pos (lt_of_lt_of_le hm hgen), if_pos (lt_of_lt_of_le hm hfp)]

theorem metrics_of_identical_rows (rs : List (List ℚ)) (w : List ℚ)
    (hne : rs ≠ []) (hw : w ≠ []) (hall : ∀ r ∈ rs, r = w) :
    (calculate_portfolio_risk_metrics rs).revenue_volatility = 0 ∧
    (calculate_portfolio_risk_metrics rs).sharpe_ratio = 0 ∧
    (calculate_portfolio_risk_metrics rs).value_at_risk_95
      = (calculate_portfolio_risk_metrics rs).mean_revenue ∧
    (calculate_portfolio_risk_metrics rs).expected_shortfall_95
      = (calculate_portfolio_risk_metrics rs).mean_revenue := by
  have hhead : rs.headI = w := by
    obtain ⟨a, t, rfl⟩ := List.exists_cons_of_ne_nil hne
    exact hall a (List.mem_cons_self a t)
  have hcond : ¬ (rs = [] ∨ rs.headI = []) := by
    push_neg
    exact ⟨hne, by rw [hhead]; exact hw⟩
  simp only [calculate_portfolio_risk_metrics, if_neg hcond]
  have hconst : ∀ x ∈ rs.map List.sum, x = w.sum := by
    intro x hx
    rw [List.mem_map] at hx
    obtain ⟨r, hr, rfl⟩ := hx
    rw [hall r hr]
  have hmapne : rs.map List.sum ≠ [] := by
    simpa using hne
  have hmean : npMean (rs.map List.sum) = w.sum := npMean_const _ _ hmapne hconst
  have hvar : npVar (rs.map List.sum) = 0 := npVar_const _ _ hconst
  have hstd : npStd (rs.map List.sum) = 0 := by
    rw [npStd, hvar]
    simp
  have hSmem : ∀ x ∈ (rs.map List.sum).insertionSort (· ≤ ·), x = w.sum := by
    intro x hx
    exact hconst x
      ((List.perm_insertionSort (· ≤ ·) (rs.map List.sum)).mem_iff.mp hx)
  have hSlen : 0 < ((rs.map List.sum).insertionSort (· ≤ ·)).length := by
    rw [List.length_insertionSort]
    exact List.length_pos.mpr hmapne
  have hk : ((rs.map List.sum).insertionSort (· ≤ ·)).length / 20
      < ((rs.map List.sum).insertionSort (· ≤ ·)).length :=
    Nat.div_lt_self hSlen (by omega)
  refine ⟨hstd, by rw [hstd, if_neg (lt_irrefl (0 : ℝ))], ?_, ?_⟩
  · rw [if_pos hk, hmean]
    rw [List.getD_eq_getElem _ _ hk]
    exact hSmem _ (List.getElem_mem hk)
  · rcases Nat.eq_zero_or_pos (((rs.map List.sum).insertionSort (· ≤ ·)).length / 20)
      with hz | hpos
    · rw [hz, if_neg (lt_irrefl 0), hmean]
      rw [List.getD_eq_getElem _ _ hSlen]
      exact hSmem _ (List.getElem_mem hSlen)
    · rw [if_pos hpos, hmean]
      have htake_ne : ((rs.map List.sum).insertionSort (· ≤ ·)).take
          (((rs.map List.sum).insertionSort (· ≤ ·)).length / 20) ≠ [] := by
        have hlt : (((rs.map List.sum).insertionSort (· ≤ ·)).take
            (((rs.map List.sum).insertionSort (· ≤ ·)).length / 20)).length
            = ((rs.map List.sum).insertionSort (· ≤ ·)).length / 20 := by
          rw [List.length_take]
          omega
        intro hcontra
        rw [hcontra, List.length_nil] at hlt
        omega
      exact npMean_const _ _ htake_ne
        (fun x hx => hSmem x (List.take_subset _ _ hx))

/-- C1: every revenue row the assembler builds uses the fair futures
price of the month, the same value for every path, so all rows are
identical across paths, and the resulting portfolio metrics have zero
revenue volatility, zero Sharpe ratio, and value at risk and expected
shortfall both equal to the mean revenue. -/
theorem C1_identical_rows_degenerate_risk (paths : List (List ℚ))
    (gen ttd : List ℚ) (rfr : ℚ) (contract_months : ℕ)
    (hgen : gen.length = 12) (httd : ttd.length = contract_months)
    (hcm : 1 ≤ contract_months) (hpaths : paths ≠ []) :
    (∀ r ∈ paths.map (fun path =>
        buildRevenueRow gen (calculate_futures_fair_value paths gen rfr ttd).1 path
          contract_months),
      r = (List.range (min 12 contract_months)).map (fun month =>
        gen.getD month 0
          * (calculate_futures_fair_value paths gen rfr ttd).1.getD month 0)) ∧
    (assembledRiskMetrics paths gen ttd rfr contract_months).revenue_volatility = 0 ∧
    (assembledRiskMetrics paths gen ttd rfr contract_months).sharpe_ratio = 0 ∧
    (assembledRiskMetrics paths gen ttd rfr contract_months).value_at_risk_95
      = (assembledRiskMetrics paths gen ttd rfr contract_months).mean_revenue ∧
    (assembledRiskMetrics paths gen ttd rfr contract_months).expected_shortfall_95
      = (assembledRiskMetrics paths gen ttd rfr contract_months).mean_revenue := by
  have hfp : (calculate_futures_fair_value paths gen rfr ttd).1.length
      = min 12 contract_months := by
    rw [fair_value_length, hgen, httd]
  have hrow : ∀ path : List ℚ,
      buildRevenueRow gen (calculate_futures_fair_value paths gen rfr ttd).1 path
          contract_months
        = (List.range (min 12 contract_months)).map (fun month =>
            gen.getD month 0
              * (calculate_futures_fair_value paths gen rfr ttd).1.getD month 0) := by
    intro path
    apply buildRevenueRow_of_full_prices
    · rw [hgen]
      exact min_le_left _ _
    · rw [hfp]
  have hall : ∀ r ∈ paths.map (fun path =>
      buildRevenueRow gen (calculate_futures_fair_value paths gen rfr ttd).1 path
        contract_months),
      r = (List.range (min 12 contract_months)).map (fun month =>
        gen.getD month 0
          * (calculate_futures_fair_value paths gen rfr ttd).1.getD month 0) := by
    intro r hr
    rw [List.mem_map] at hr
    obtain ⟨path, hpath, rfl⟩ := hr
    exact hrow path
  refine ⟨hall, ?_⟩
  have hwne : (List.range (min 12 contract_months)).map (fun month =>
      gen.getD month 0
        * (calculate_futures_fair_value paths gen rfr ttd).1.getD month 0) ≠ [] := by
    have : 0 < min 12 contract_months := by omega
    simp [List.range_eq_nil]
    omega
  have hrsne : paths.map (fun path =>
      buildRevenueRow gen (calculate_futures_fair_value paths gen rfr ttd).1 path
        contract_months) ≠ [] := by
    simpa using hpaths
  exact metrics_of_identical_rows _ _ hrsne hwne hall

/-- C1 witness: a concrete request with two simulated paths and one
contract month. -/
theorem C1_identical_rows_degenerate_risk_witness :
    (([1, 1, 1, 1, 1, 1, 1, 1, 1, 1, 1, 1] : List ℚ).length = 12 ∧
      ([(1/12 : ℚ)]).length = 1 ∧ 1 ≤ 1 ∧
      ([[50, 50], [60, 60]] : List (List ℚ)) ≠ []) ∧
    ((∀ r ∈ ([[50, 50], [60, 60]] : List (List ℚ)).map (fun path =>
        buildRevenueRow [1, 1, 1, 1, 1, 1, 1, 1, 1, 1, 1, 1]
          (calculate_futures_fair_value [[50, 50], [60, 60]]
            [1, 1, 1, 1, 1, 1, 1, 1, 1, 1, 1, 1] (4/100) [1/12]).1 path 1),
      r = (List.range (min 12 1)).map (fun month =>
        ([1, 1, 1, 1, 1, 1, 1, 1, 1, 1, 1, 1] : List ℚ).getD month 0
          * (calculate_futures_fair_value [[50, 50], [60, 60]]
              [1, 1, 1, 1, 1, 1, 1, 1, 1, 1, 1, 1] (4/100) [1/12]).1.getD month 0)) ∧
    (assembledRiskMetrics [[50, 50], [60, 60]] [1, 1, 1, 1, 1, 1, 1, 1, 1, 1, 1, 1]
        [1/12] (4/100) 1).revenue_volatility = 0 ∧
    (assembledRiskMetrics [[50, 50], [60, 60]] [1, 1, 1, 1, 1, 1, 1, 1, 1, 1, 1, 1]
        [1/12] (4/100) 1).sharpe_ratio = 0 ∧
    (assembledRiskMetrics [[50, 50], [60, 60]] [1, 1, 1, 1, 1, 1, 1, 1, 1, 1, 1, 1]
        [1/12] (4/100) 1).value_at_risk_95
      = (assembledRiskMetrics [[50, 50], [60, 60]] [1, 1, 1, 1, 1, 1, 1, 1, 1, 1, 1, 1]
          [1/12] (4/100) 1).mean_revenue ∧
    (assembledRiskMetrics [[50, 50], [60, 60]] [1, 1, 1, 1, 1, 1, 1, 1, 1, 1, 1, 1]
        [1/12] (4/100) 1).expected_shortfall_95
      = (assembledRiskMetrics [[50, 50], [60, 60]] [1, 1, 1, 1, 1, 1, 1, 1, 1, 1, 1, 1]
          [1/12] (4/100) 1).mean_revenue) :=
  ⟨⟨by decide, by decide, by decide, by simp⟩,
    C1_identical_rows_degenerate_risk [[50, 50], [60, 60]]
      [1, 1, 1, 1, 1, 1, 1, 1, 1, 1, 1, 1] [1/12] (4/100) 1
      (by decide) (by decide) (by decide) (by simp)⟩
